import Mathlib

/-!
Verification of the `k8s-to-snyk` inventory-and-map pipeline
(`k8s-to-snyk.py`) against its natural-language specification.

The Python program is shallowly embedded here:

* Python values flowing through the configuration dictionary are modelled
  by the inductive type `PyVal` (None / bool / str / list / dict).
* Dictionary operations (`.get`, subscript, `.items()`) and iteration are
  modelled as functions into `Except String`, where `.error` marks a raised
  Python exception (`AttributeError`, `KeyError`, `TypeError`, ...).
* The Kubernetes API is an external collaborator and is modelled as an
  oracle (`Cluster`): a pod listing per namespace plus a cluster-wide pod
  listing, each either succeeding with a list of pods or failing with an
  `ApiException`.
* The `re` module is likewise external and is modelled as a `RegexEngine`
  oracle: `compile` yields `none` exactly on a syntactically invalid
  pattern (Python raises `re.error` at the first `re.search` call).
-/

/-- Embedding of the Python values stored in the parsed configuration file
and in pod metadata: `None`, booleans, strings, lists and string-keyed
dictionaries (a dictionary is an association list in insertion order). -/
inductive PyVal where
  | vNone
  | vBool (b : Bool)
  | vStr (s : String)
  | vList (xs : List PyVal)
  | vDict (entries : List (String × PyVal))

/-- Python truthiness (`if x:`): `None`, `False`, `""`, `[]` and `{}` are
falsy, everything else modelled here is truthy. -/
def truthy : PyVal → Bool
  | .vNone => false
  | .vBool b => b
  | .vStr s => !s.isEmpty
  | .vList xs => !xs.isEmpty
  | .vDict es => !es.isEmpty

/-- Python `x == s` where `s` is known to be a `str`: true exactly when `x`
is an equal string (comparison with a non-string is `False`, no error). -/
def pyEqStr (x : PyVal) (s : String) : Bool :=
  match x with
  | .vStr t => t == s
  | _ => false

/-- Python `d.get(k, dflt)`: raises `AttributeError` when `d` is not a
dictionary, otherwise returns the stored value or the default. -/
def pyGet (d : PyVal) (k : String) (dflt : PyVal) : Except String PyVal :=
  match d with
  | .vDict es => .ok ((es.lookup k).getD dflt)
  | _ => .error "AttributeError"

/-- Python `d.get(k)` (default `None`). -/
def pyGetD (d : PyVal) (k : String) : Except String PyVal :=
  pyGet d k .vNone

/-- Python `d[k]`: `KeyError` when absent, `TypeError` when `d` is not a
dictionary. -/
def pyItem (d : PyVal) (k : String) : Except String PyVal :=
  match d with
  | .vDict es =>
    match es.lookup k with
    | some v => .ok v
    | none => .error "KeyError"
  | _ => .error "TypeError"

/-- Python `d.items()`: `AttributeError` when `d` is not a dictionary. -/
def pyItems : PyVal → Except String (List (String × PyVal))
  | .vDict es => .ok es
  | _ => .error "AttributeError"

/-- Python `d.get(k)` where the key expression `k` is itself a Python
value: hashable non-string keys simply miss (the dictionaries modelled
here are string-keyed), unhashable keys (list/dict) raise `TypeError`. -/
def pyGetByVal (d : PyVal) (k : PyVal) : Except String PyVal :=
  match d with
  | .vDict es =>
    match k with
    | .vStr s => .ok ((es.lookup s).getD .vNone)
    | .vNone => .ok .vNone
    | .vBool _ => .ok .vNone
    | _ => .error "TypeError"
  | _ => .error "AttributeError"

/-- Python iteration `for x in v`: lists yield their elements, strings
yield their characters as one-character strings, dictionaries yield their
keys; `None` and booleans raise `TypeError`. -/
def pyIter : PyVal → Except String (List PyVal)
  | .vList xs => .ok xs
  | .vStr s => .ok (s.toList.map (fun c => .vStr (String.singleton c)))
  | .vDict es => .ok (es.map (fun kv => .vStr kv.1))
  | _ => .error "TypeError"

/-- A pod as the program reads it: `metadata.name`, `metadata.labels`
(possibly `None`), `spec.containers` and `spec.init_containers` (possibly
`None`), with containers reduced to their `image` field. -/
structure Pod where
  name : String
  labels : Option (List (String × String))
  containers : List String
  initContainers : Option (List String)

/-- The Kubernetes API oracle: `list_namespaced_pod` per namespace and
`list_pod_for_all_namespaces`, each either a pod list or an
`ApiException`. -/
structure Cluster where
  podsIn : String → Except Unit (List Pod)
  allPods : Except Unit (List Pod)

/-- The `re` module oracle: `compile p = none` exactly when `p` is a
syntactically invalid pattern (Python raises `re.error` when the pattern
is first used), otherwise the compiled search predicate. -/
structure RegexEngine where
  compile : String → Option (String → Bool)

/-- Images contributed by `pod.spec.init_containers`, guarded by the
Python truthiness test `if pod.spec.init_containers:`. -/
def initImages : Option (List String) → List String
  | some ics => if ics.isEmpty then [] else ics
  | none => []

/-- All images of one pod: regular containers, then init containers. -/
def podImages (p : Pod) : List String :=
  p.containers ++ initImages p.initContainers

/-- Python `pod.metadata.labels or {}` as a `PyVal` dictionary. -/
def labelsDict (p : Pod) : PyVal :=
  .vDict ((p.labels.getD []).map (fun kv => (kv.1, PyVal.vStr kv.2)))

/-- One entry of the `pod_labels` dictionary built by
`Client.get_image_labels`: present iff some container or (truthy)
init-container of the pod runs `image`. -/
def podEntry (image : String) (p : Pod) : Option (String × PyVal) :=
  if p.containers.contains image || (initImages p.initContainers).contains image then
    some (p.name, labelsDict p)
  else
    none

/-- Embedding of `Client.get_image_labels` (lines 144-168): lists the pods
of `ns` and maps each pod using `image` to its labels; every exception
(`ApiException` or other, e.g. a non-string namespace) is caught and
yields `None`. -/
def get_image_labels (cl : Cluster) (ns : PyVal) (image : String) : PyVal :=
  match ns with
  | .vStr s =>
    match cl.podsIn s with
    | .ok pods => .vDict (pods.filterMap (podEntry image))
    | .error _ => .vNone
  | _ => .vNone

/-- The dictionary `{"orgId": snyk_data.get("snyk_org_id"),
"integrationId": snyk_data.get("snyk_integration_id")}` returned by
`Client.map_image_to_snyk`, embedded as the pair (orgId, integrationId). -/
def targetOf (snyk_data : PyVal) : Except String (PyVal × PyVal) := do
  let o ← pyGetD snyk_data "snyk_org_id"
  let i ← pyGetD snyk_data "snyk_integration_id"
  return (o, i)

/-- The inner loop `for map_value, snyk_data in snyk_mapping["values"].items():`
returning on the first entry whose key equals the discriminator. -/
def scanValues (items : List (String × PyVal)) (disc : PyVal) :
    Except String (Option (PyVal × PyVal)) :=
  match items with
  | [] => .ok none
  | (map_value, snyk_data) :: rest =>
    if pyEqStr disc map_value then do
      let t ← targetOf snyk_data
      return some t
    else scanValues rest disc

/-- The outer loop `for pod_name, labels in pod_labels.items():` of the
`map_on == "label"` branch: reads the label value for each pod and, when
both it and `snyk_mapping.get("values")` are truthy, scans the value
rules; failing that, moves on to the next pod. -/
def loopPods (entries : List (String × PyVal)) (label_name : PyVal)
    (snyk_mapping : PyVal) : Except String (Option (PyVal × PyVal)) :=
  match entries with
  | [] => .ok none
  | (_, labels) :: rest => do
    let label_value ← pyGetByVal labels label_name
    if truthy label_value then
      let vs ← pyGetD snyk_mapping "values"
      if truthy vs then
        let vsv ← pyItem snyk_mapping "values"
        let items ← pyItems vsv
        match ← scanValues items label_value with
        | some t => return some t
        | none => loopPods rest label_name snyk_mapping
      else loopPods rest label_name snyk_mapping
    else loopPods rest label_name snyk_mapping

/-- Embedding of `Client.map_image_to_snyk` (lines 111-142). `config_data`
is the loaded configuration dictionary, `cl` the cluster oracle (used by
the label branch through `get_image_labels`), `ns` the namespace argument
and `image_name` the image argument. An `.error` result models a raised
Python exception. -/
def map_image_to_snyk (config_data : PyVal) (cl : Cluster) (ns : PyVal)
    (image_name : String) : Except String (Option (PyVal × PyVal)) := do
  let snyk_mapping ← pyGet config_data "snyk_org_mapping" (.vDict [])
  if !truthy snyk_mapping then
    return none
  let map_on ← pyGetD snyk_mapping "map_on"
  if pyEqStr map_on "label" then
    let label_name ← pyGetD snyk_mapping "label"
    let pod_labels := get_image_labels cl ns image_name
    if !truthy pod_labels then
      return none
    let entries ← pyItems pod_labels
    loopPods entries label_name snyk_mapping
  else if pyEqStr map_on "namespace" then
    let vs ← pyGetD snyk_mapping "values"
    if truthy vs then
      let vsv ← pyItem snyk_mapping "values"
      let items ← pyItems vsv
      scanValues items ns
    else
      return none
  else
    return none

/-- Strict lexicographic order on character lists by code point — the
order Python uses to compare strings. -/
def charListLt : List Char → List Char → Bool
  | _, [] => false
  | [], _ :: _ => true
  | c :: cs, d :: ds =>
    if c.toNat < d.toNat then true
    else if d.toNat < c.toNat then false
    else charListLt cs ds

/-- Python `a < b` on strings: lexicographic by code point. -/
def strLt (a b : String) : Bool :=
  charListLt a.toList b.toList

/-- Insertion of one string into a sorted duplicate-free list, preserving
both properties; folding it over a list models Python
`sorted(list(set(...)))`. -/
def insertSorted (x : String) : List String → List String
  | [] => [x]
  | y :: ys =>
    if x = y then y :: ys
    else if strLt x y then x :: y :: ys
    else y :: insertSorted x ys

/-- Python `sorted(list(set(xs)))` for a list of strings. -/
def pySortedSet (xs : List String) : List String :=
  xs.foldr insertSorted []

/-- The raw image references `Client.get_all_images` (lines 65-96) feeds
into its `all_images` set, before deduplication and sorting: `none` models
the `return None` taken when any listing raises. -/
def collectImages (cl : Cluster) (namespaces : PyVal) : Option (List String) :=
  if truthy namespaces then
    match pyIter namespaces with
    | .error _ => none
    | .ok nsVals =>
      ((nsVals.mapM (fun nsv =>
        match nsv with
        | .vStr s => (cl.podsIn s).toOption
        | _ => none) : Option (List (List Pod)))).map
        (fun podLists => (podLists.flatMap id).flatMap podImages)
  else
    match cl.allPods with
    | .ok pods => some (pods.flatMap podImages)
    | .error _ => none

/-- Embedding of `Client.get_all_images` (lines 65-96): collects every
container and init-container image of the selected pods into a set and
returns it sorted; every exception (an `ApiException` from a listing, a
non-iterable `namespaces` value, a non-string namespace entry) is caught
and yields `None`. -/
def get_all_images (cl : Cluster) (namespaces : PyVal) : Option (List String) :=
  (collectImages cl namespaces).map pySortedSet

/-- One `re.search(exclude_regex, image)` call of the filtering list
comprehension: `re.error` on an invalid pattern, `TypeError` on a
non-string pattern. -/
def pySearch (eng : RegexEngine) (pat : PyVal) (s : String) : Except String Bool :=
  match pat with
  | .vStr p =>
    match eng.compile p with
    | some f => .ok (f s)
    | none => .error "re.error"
  | _ => .error "TypeError"

/-- The list comprehension
`[image for image in images if not re.search(exclude_regex, image)]`,
aborting with the exception of the first failing `re.search` call. -/
def filterLoop (eng : RegexEngine) (pat : PyVal) :
    List String → Except String (List String)
  | [] => .ok []
  | i :: rest => do
    let m ← pySearch eng pat i
    let tail ← filterLoop eng pat rest
    return if m then tail else i :: tail

/-- Embedding of `Client.filter_images` (lines 98-109): returns the input
unchanged when the pattern is falsy, otherwise filters, catching exactly
`re.error` (invalid pattern) by returning the input unchanged; any other
exception (iterating `None`, a non-string pattern) propagates. -/
def filter_images (eng : RegexEngine) (images : Option (List String))
    (exclude_regex : PyVal) : Except String (Option (List String)) :=
  if !truthy exclude_regex then .ok images
  else
    match images with
    | none => .error "TypeError"
    | some l =>
      match filterLoop eng exclude_regex l with
      | .ok fl => .ok (some fl)
      | .error e => if e = "re.error" then .ok (some l) else .error e

/-- One element of the `images_data` list built by the `__main__` loop
(lines 210-222). -/
structure ImageData where
  image : String
  orgId : PyVal
  integrationId : PyVal

/-- The inner `for namespace in namespaces_to_scan:` loop of `__main__`:
tries each namespace in order and stops at the first one whose mapping is
truthy (the `break`). -/
def resolveFirst (cfg : PyVal) (cl : Cluster) (nsVals : List PyVal)
    (img : String) : Except String (Option (PyVal × PyVal)) :=
  match nsVals with
  | [] => .ok none
  | ns :: rest => do
    match ← map_image_to_snyk cfg cl ns img with
    | some t => return some t
    | none => resolveFirst cfg cl rest img

/-- The outer `for image in filtered_images:` loop of `__main__`
(lines 210-222), building `images_data` in input order; iteration over
`namespaces_to_scan` happens inside the loop body, so a non-iterable
value only raises when at least one image is processed. -/
def buildImagesData (cfg : PyVal) (cl : Cluster) (namespaces : PyVal) :
    List String → Except String (List ImageData)
  | [] => .ok []
  | img :: rest => do
    let nsVals ← pyIter namespaces
    let r ← resolveFirst cfg cl nsVals img
    let tail ← buildImagesData cfg cl namespaces rest
    match r with
    | some (o, i) => return ⟨img, o, i⟩ :: tail
    | none => return tail

/-- One record of the `targets` array written by
`Client.create_targets_file` (lines 170-187): the target name is the full
image reference, verbatim. -/
structure TargetEntry where
  orgId : PyVal
  integrationId : PyVal
  name : String

/-- The `targets` array assembled by `Client.create_targets_file` from
`images_data`, before serialization. -/
def targetsOf (data : List ImageData) : List TargetEntry :=
  data.map (fun d => ⟨d.orgId, d.integrationId, d.image⟩)

/-- Outcome of reading and parsing the configuration file, as seen by
`Client._load_config_file` (lines 21-48). `readCrash` is an exception
outside the three caught classes (e.g. `PermissionError`), which
propagates. -/
inductive ConfigOutcome where
  | missing
  | parsed (v : PyVal)
  | decodeError
  | badExtension
  | readCrash

/-- Embedding of `Client._load_config_file` (lines 21-48): a missing file,
a decode error and an unsupported extension are all logged and degrade to
the empty dictionary `{}`; only an exception outside the caught classes
propagates. -/
def load_config_file : ConfigOutcome → Except String PyVal
  | .missing => .ok (.vDict [])
  | .parsed v => .ok v
  | .decodeError => .ok (.vDict [])
  | .badExtension => .ok (.vDict [])
  | .readCrash => .error "OSError"

/-- The external world of one program run: whether the Kubernetes
configuration loads, the configuration-file outcome, the cluster oracle,
the regex oracle, and whether the output file is writable. -/
structure Env where
  kubeLoadOk : Bool
  configOutcome : ConfigOutcome
  cluster : Cluster
  regex : RegexEngine
  writeOk : Bool

/-- Embedding of `Client.create_targets_file` (lines 170-187): the write
is wrapped in `try/except Exception`, so the call always returns normally
(an unwritable path or a non-string path is merely logged). -/
def create_targets_file (_writeOk : Bool) (_path : PyVal)
    (_data : List ImageData) : Unit := ()

/-- The body of the outer `try:` of `__main__` (lines 202-227): client
construction (Kubernetes configuration load, then configuration-file
load), image collection, filtering, the mapping loop, and the output
write. An `.error` is an exception reaching the outer handler. -/
def mainBody (env : Env) : Except String Unit := do
  if !env.kubeLoadOk then
    throw "ConfigException"
  let config_data ← load_config_file env.configOutcome
  let namespaces_to_scan ← pyGetD config_data "namespaces"
  let all_images := get_all_images env.cluster namespaces_to_scan
  let exclude_regex ← pyGetD config_data "image_filter_regex_exclude"
  let filtered ← filter_images env.regex all_images exclude_regex
  let flist ← match filtered with
    | some l => Except.ok l
    | none => Except.error "TypeError"
  let images_data ← buildImagesData config_data env.cluster namespaces_to_scan flist
  let targets_path ← pyGetD config_data "targets_file_output_path"
  let _ := create_targets_file env.writeOk targets_path images_data
  return ()

/-- The process exit code of `__main__`: the outer
`except Exception: logger.exception(...)` catches every exception, logs
it, and falls off the end of the script, so Python exits 0 on every path. -/
def mainExit (env : Env) : Nat :=
  match mainBody env with
  | .ok _ => 0
  | .error _ => 0

/-- Splitting a character list at every slash, keeping empty segments —
the semantics of Python `s.split("/")`. -/
def splitOnSlash : List Char → List (List Char)
  | [] => [[]]
  | c :: cs =>
    if c = '/' then [] :: splitOnSlash cs
    else
      match splitOnSlash cs with
      | s :: ss => (c :: s) :: ss
      | [] => [[c]]

/-- The slash-delimited segments of an image reference. -/
def pathSegs (ref : String) : List String :=
  (splitOnSlash ref.toList).map List.asString

/-- Joining segments back with slashes (Python `"/".join(...)`). -/
def joinSlash : List String → String
  | [] => ""
  | [s] => s
  | s :: rest => s ++ "/" ++ joinSlash rest

/-- Modelled from the spec: the PathSuffix target-name builder is part of
the repository variant absent from the sources at hand. Per sections 4.2
and 9 of the specification, it takes the last two slash-delimited segments
of the image reference joined by a slash, and the reference implementation
crashes (an unhandled `IndexError`) when the reference has fewer than two
segments. -/
def pathSuffixName (ref : String) : Except String String :=
  let parts := pathSegs ref
  if parts.length < 2 then .error "IndexError"
  else .ok (joinSlash (parts.drop (parts.length - 2)))

/-! Concrete scenarios used by counterexamples and witnesses. -/

/-- A cluster with no pods at all. -/
def clEmpty : Cluster := ⟨fun _ => .ok [], .ok []⟩

/-- One pod, labelled `team=payments`, with containers `b`, `a` and init
container `a`. -/
def podA : Pod := ⟨"p1", some [("team", "payments")], ["b", "a"], some ["a"]⟩

/-- A cluster whose every listing returns exactly `podA`. -/
def clOnePod : Cluster := ⟨fun _ => .ok [podA], .ok [podA]⟩

/-- A regex oracle whose every pattern is invalid. -/
def engAllInvalid : RegexEngine := ⟨fun _ => none⟩

/-- A regex oracle whose every pattern is valid and matches exactly the
string `"b"`. -/
def engMatchB : RegexEngine := ⟨fun _ => some (fun s => s == "b")⟩

/-- A mapping configuration with `map_on=namespace`, the given value
rules, and the given default rule. -/
def mkNsCfg (vs : List (String × PyVal)) (d : PyVal) : PyVal :=
  .vDict [("snyk_org_mapping", .vDict
    [("map_on", .vStr "namespace"),
     ("values", .vDict vs),
     ("default", d)])]

/-- The configuration of claim C1: `map_on=namespace`, empty value rules,
and a present, valid default rule. -/
def cfgEmptyValuesWithDefault : PyVal :=
  mkNsCfg [] (.vDict [("snyk_org_id", .vStr "O0"), ("snyk_integration_id", .vStr "I0")])

/-- A value rule `{"snyk_org_id": "OA", "snyk_integration_id": "IA"}`. -/
def ruleA : PyVal :=
  .vDict [("snyk_org_id", .vStr "OA"), ("snyk_integration_id", .vStr "IA")]

/-- A configuration with one value rule for namespace `ns-a` and no
default rule. -/
def cfgOnlyNsA : PyVal :=
  .vDict [("snyk_org_mapping", .vDict
    [("map_on", .vStr "namespace"),
     ("values", .vDict [("ns-a", ruleA)])])]

/-- A run environment whose Kubernetes-configuration load fails (bad
credentials): `config.load_kube_config` raises `ConfigException`. -/
def envBadCreds : Env :=
  ⟨false, .parsed (.vDict []), clEmpty, engMatchB, true⟩

/-- Well-formedness of one value rule as typed by the data model: a
dictionary (its `snyk_org_id` / `snyk_integration_id` fields may be
absent). -/
def wfRule : PyVal → Bool
  | .vDict _ => true
  | _ => false

/-- Well-formedness of the `values` field: either a dictionary of rules,
or any falsy value (the code only calls `.items()` on a truthy value). -/
def wfValues : PyVal → Bool
  | .vDict es => es.all (fun kv => wfRule kv.2)
  | v => !truthy v

/-- Whether a value is hashable in Python (usable as a `dict.get` key). -/
def hashable : PyVal → Bool
  | .vDict _ => false
  | .vList _ => false
  | _ => true

/-- A configuration dictionary whose `snyk_org_mapping` entry is typed as
the MappingPolicy of the data model: if present and truthy it is a
dictionary whose `values` field (when truthy) is a dictionary of rule
dictionaries and whose `label` field is hashable. -/
def wfConfig : PyVal → Bool
  | .vDict es =>
    match es.lookup "snyk_org_mapping" with
    | none => true
    | some sm =>
      !truthy sm ||
      (match sm with
       | .vDict sme =>
         wfValues ((sme.lookup "values").getD .vNone)
           && hashable ((sme.lookup "label").getD .vNone)
       | _ => false)
  | _ => false

/-! Order facts about the code-point comparison used by `pySortedSet`. -/

theorem charListLt_irrefl : ∀ a : List Char, charListLt a a = false := by
  intro a
  induction a with
  | nil => rfl
  | cons c cs ih => simp [charListLt, ih]

theorem charListLt_trans : ∀ a b c : List Char, charListLt a b = true →
    charListLt b c = true → charListLt a c = true := by
  intro a
  induction a with
  | nil =>
    intro b c h1 h2
    cases b with
    | nil => simp [charListLt] at h1
    | cons y ys =>
      cases c with
      | nil => simp [charListLt] at h2
      | cons z zs => rfl
  | cons x xs ih =>
    intro b c h1 h2
    cases b with
    | nil => simp [charListLt] at h1
    | cons y ys =>
      cases c with
      | nil => simp [charListLt] at h2
      | cons z zs =>
        rcases Nat.lt_trichotomy x.toNat y.toNat with hxy | hxy | hxy
        · rcases Nat.lt_trichotomy y.toNat z.toNat with hyz | hyz | hyz
          · simp [charListLt, Nat.lt_trans hxy hyz]
          · simp [charListLt, hyz ▸ hxy]
          · simp [charListLt, Nat.lt_asymm hyz, hyz] at h2
        · rcases Nat.lt_trichotomy y.toNat z.toNat with hyz | hyz | hyz
          · simp [charListLt, hxy ▸ hyz]
          · simp only [charListLt] at h1 h2 ⊢
            have e1 : ¬ x.toNat < y.toNat := by omega
            have e2 : ¬ y.toNat < x.toNat := by omega
            have e3 : ¬ y.toNat < z.toNat := by omega
            have e4 : ¬ z.toNat < y.toNat := by omega
            have e5 : ¬ x.toNat < z.toNat := by omega
            have e6 : ¬ z.toNat < x.toNat := by omega
            rw [if_neg e1, if_neg e2] at h1
            rw [if_neg e3, if_neg e4] at h2
            rw [if_neg e5, if_neg e6]
            exact ih ys zs h1 h2
          · simp [charListLt, Nat.lt_asymm hyz, hyz] at h2
        · simp [charListLt, Nat.lt_asymm hxy, hxy] at h1

theorem char_toNat_inj : ∀ {a b : Char}, a.toNat = b.toNat → a = b := by
  intro a b h
  have := congrArg Char.ofNat h
  rwa [Char.ofNat_toNat, Char.ofNat_toNat] at this

theorem charListLt_total : ∀ a b : List Char, a ≠ b →
    charListLt a b = true ∨ charListLt b a = true := by
  intro a
  induction a with
  | nil =>
    intro b hne
    cases b with
    | nil => exact absurd rfl hne
    | cons d ds => exact Or.inl rfl
  | cons c cs ih =>
    intro b hne
    cases b with
    | nil => exact Or.inr rfl
    | cons d ds =>
      rcases Nat.lt_trichotomy c.toNat d.toNat with h1 | h1 | h1
      · left; simp [charListLt, h1]
      · have hcd : c = d := char_toNat_inj h1
        subst hcd
        have hne2 : cs ≠ ds := fun h => hne (by rw [h])
        rcases ih ds hne2 with h | h
        · left; simp [charListLt, h]
        · right; simp [charListLt, h]
      · right; simp [charListLt, h1]

theorem strLt_trans {a b c : String} (h1 : strLt a b = true)
    (h2 : strLt b c = true) : strLt a c = true :=
  charListLt_trans _ _ _ h1 h2

theorem strLt_ne {a b : String} (h : strLt a b = true) : a ≠ b := by
  intro he
  subst he
  rw [strLt, charListLt_irrefl] at h
  exact Bool.false_ne_true h

theorem strLt_total {a b : String} (hne : a ≠ b) :
    strLt a b = true ∨ strLt b a = true :=
  charListLt_total _ _ (fun h => hne (String.toList_inj.mp h))

/-! Facts about `insertSorted` and `pySortedSet`. -/

theorem mem_insertSorted : ∀ (x a : String) (l : List String),
    a ∈ insertSorted x l ↔ a = x ∨ a ∈ l := by
  intro x a l
  induction l with
  | nil => simp [insertSorted]
  | cons y ys ih =>
    simp only [insertSorted]
    by_cases h1 : x = y
    · rw [if_pos h1]
      subst h1
      simp only [List.mem_cons]
      constructor
      · exact fun h => Or.inr h
      · rintro (rfl | h)
        · exact Or.inl rfl
        · exact h
    · rw [if_neg h1]
      by_cases h2 : strLt x y = true
      · simp [if_pos h2, List.mem_cons]
      · simp only [if_neg h2, List.mem_cons, ih]
        tauto

theorem pairwise_insertSorted : ∀ (x : String) (l : List String),
    l.Pairwise (fun a b => strLt a b = true) →
    (insertSorted x l).Pairwise (fun a b => strLt a b = true) := by
  intro x l
  induction l with
  | nil => intro _; simp [insertSorted]
  | cons y ys ih =>
    intro hp
    rcases List.pairwise_cons.mp hp with ⟨hy, hys⟩
    simp only [insertSorted]
    by_cases h1 : x = y
    · rw [if_pos h1]; exact hp
    · rw [if_neg h1]
      by_cases h2 : strLt x y = true
      · rw [if_pos h2]
        refine List.pairwise_cons.mpr ⟨?_, hp⟩
        intro b hb
        rcases List.mem_cons.mp hb with rfl | hb2
        · exact h2
        · exact strLt_trans h2 (hy b hb2)
      · rw [if_neg h2]
        refine List.pairwise_cons.mpr ⟨?_, ih hys⟩
        intro b hb
        rcases (mem_insertSorted x b ys).mp hb with rfl | hb2
        · rcases strLt_total h1 with h | h
          · exact absurd h h2
          · exact h
        · exact hy b hb2

theorem pairwise_pySortedSet (xs : List String) :
    (pySortedSet xs).Pairwise (fun a b => strLt a b = true) := by
  induction xs with
  | nil => exact List.Pairwise.nil
  | cons x rest ih => exact pairwise_insertSorted x _ ih

theorem mem_pySortedSet (a : String) (xs : List String) :
    a ∈ pySortedSet xs ↔ a ∈ xs := by
  induction xs with
  | nil => simp [pySortedSet]
  | cons x rest ih =>
    simp only [pySortedSet, List.foldr_cons] at *
    rw [mem_insertSorted, ih, List.mem_cons]

theorem nodup_pySortedSet (xs : List String) : (pySortedSet xs).Nodup :=
  (pairwise_pySortedSet xs).imp (fun h => strLt_ne h)

/-! Reduction lemmas for the `Except` monad operations produced by
`do` notation. -/

theorem exc_bind_ok {e a b : Type} (x : a) (f : a → Except e b) :
    (Except.ok x : Except e a) >>= f = f x := rfl

theorem exc_bind_error {e a b : Type} (err : e) (f : a → Except e b) :
    (Except.error err : Except e a) >>= f = Except.error err := rfl

theorem exc_map_ok {e a b : Type} (f : a → b) (x : a) :
    f <$> (Except.ok x : Except e a) = Except.ok (f x) := rfl

theorem exc_map_error {e a b : Type} (f : a → b) (err : e) :
    f <$> (Except.error err : Except e a) = Except.error err := rfl

theorem exc_pure {e a : Type} (x : a) :
    (pure x : Except e a) = Except.ok x := rfl

/-! Facts about the exclusion filter. -/

theorem filterLoop_valid {eng : RegexEngine} {pat : String} {f : String → Bool}
    (hc : eng.compile pat = some f) :
    ∀ l : List String, filterLoop eng (.vStr pat) l = .ok (l.filter (fun i => !f i)) := by
  intro l
  induction l with
  | nil => rfl
  | cons i rest ih =>
    simp only [filterLoop, pySearch, hc, ih, exc_bind_ok, exc_map_ok, exc_pure,
      List.filter_cons]
    cases hfi : f i <;> simp [hfi]

theorem filterLoop_invalid {eng : RegexEngine} {pat : String}
    (hc : eng.compile pat = none) (i : String) (rest : List String) :
    filterLoop eng (.vStr pat) (i :: rest) = .error "re.error" := by
  simp only [filterLoop, pySearch, hc, exc_bind_error]

theorem filterLoop_ok_filter {eng : RegexEngine} {pat : PyVal} :
    ∀ {l fl : List String}, filterLoop eng pat l = .ok fl →
    fl = l.filter (fun i =>
      match pySearch eng pat i with
      | .ok m => !m
      | .error _ => false) := by
  intro l
  induction l with
  | nil =>
    intro fl h
    simp only [filterLoop] at h
    cases h
    rfl
  | cons i rest ih =>
    intro fl h
    simp only [filterLoop] at h
    cases hs : pySearch eng pat i with
    | error e =>
      rw [hs, exc_bind_error] at h
      exact Except.noConfusion h
    | ok m =>
      rw [hs, exc_bind_ok] at h
      cases ht : filterLoop eng pat rest with
      | error e =>
        rw [ht, exc_bind_error] at h
        exact Except.noConfusion h
      | ok tl =>
        rw [ht, exc_bind_ok, exc_pure] at h
        injection h with h2
        subst h2
        simp only [List.filter_cons, hs]
        cases m
        · simp [ih ht]
        · simp [ih ht]

theorem filter_images_unchanged_of_invalid {eng : RegexEngine} {pat : String}
    (hc : eng.compile pat = none) (l : List String) :
    filter_images eng (some l) (.vStr pat) = .ok (some l) := by
  by_cases hp : pat.isEmpty
  · simp [filter_images, truthy, hp]
  · simp only [filter_images, truthy, hp]
    cases l with
    | nil => rfl
    | cons i rest => simp [filterLoop_invalid hc]

theorem filter_images_ok_shape {eng : RegexEngine} {pat : PyVal}
    {l fl : List String} (h : filter_images eng (some l) pat = .ok (some fl)) :
    fl = l ∨ ∃ q : String → Bool, fl = l.filter q := by
  by_cases ht : truthy pat
  · cases hfl : filterLoop eng pat l with
    | ok res =>
      have he : filter_images eng (some l) pat = .ok (some res) := by
        simp [filter_images, ht, hfl]
      rw [he] at h
      injection h with h2
      injection h2 with h3
      subst h3
      exact Or.inr ⟨_, filterLoop_ok_filter hfl⟩
    | error e =>
      by_cases he : e = "re.error"
      · have hu : filter_images eng (some l) pat = .ok (some l) := by
          simp [filter_images, ht, hfl, he]
        rw [hu] at h
        injection h with h2
        injection h2 with h3
        exact Or.inl h3.symm
      · have hu : filter_images eng (some l) pat = .error e := by
          simp [filter_images, ht, hfl, he]
        rw [hu] at h
        exact Except.noConfusion h
  · have hu : filter_images eng (some l) pat = .ok (some l) := by
      simp [filter_images, ht]
    rw [hu] at h
    injection h with h2
    injection h2 with h3
    exact Or.inl h3.symm

/-! The per-image `break` loop of `__main__` emits at most one entry per
input image. -/

theorem buildImagesData_sublist {cfg : PyVal} {cl : Cluster} {nsv : PyVal} :
    ∀ {imgs : List String} {data : List ImageData},
    buildImagesData cfg cl nsv imgs = .ok data →
    (data.map (fun d => d.image)).Sublist imgs := by
  intro imgs
  induction imgs with
  | nil =>
    intro data h
    simp only [buildImagesData] at h
    cases h
    simp
  | cons img rest ih =>
    intro data h
    simp only [buildImagesData] at h
    cases hit : pyIter nsv with
    | error e =>
      rw [hit, exc_bind_error] at h
      exact Except.noConfusion h
    | ok nsVals =>
      rw [hit, exc_bind_ok] at h
      cases hr : resolveFirst cfg cl nsVals img with
      | error e =>
        rw [hr, exc_bind_error] at h
        exact Except.noConfusion h
      | ok r =>
        rw [hr, exc_bind_ok] at h
        cases htl : buildImagesData cfg cl nsv rest with
        | error e =>
          rw [htl, exc_bind_error] at h
          exact Except.noConfusion h
        | ok tail =>
          rw [htl, exc_bind_ok] at h
          cases r with
          | none =>
            rw [exc_pure] at h
            injection h with h2
            subst h2
            exact List.Sublist.cons img (ih htl)
          | some t =>
            cases t with
            | mk o i =>
              rw [exc_pure] at h
              injection h with h2
              subst h2
              simpa using List.Sublist.cons₂ img (ih htl)

/-! Totality of the resolver on well-typed mapping policies. -/

theorem targetOf_ok {sd : PyVal} (h : wfRule sd = true) :
    ∃ t, targetOf sd = .ok t := by
  cases sd with
  | vDict es => exact ⟨_, rfl⟩
  | vNone => simp [wfRule] at h
  | vBool b => simp [wfRule] at h
  | vStr s => simp [wfRule] at h
  | vList xs => simp [wfRule] at h

theorem scanValues_ok {items : List (String × PyVal)}
    (h : ∀ kv ∈ items, wfRule kv.2 = true) (disc : PyVal) :
    ∃ r, scanValues items disc = .ok r := by
  induction items with
  | nil => exact ⟨none, rfl⟩
  | cons kv rest ih =>
    cases kv with
    | mk k sd =>
      simp only [scanValues]
      by_cases he : pyEqStr disc k = true
      · rw [if_pos he]
        rcases targetOf_ok (h (k, sd) (List.mem_cons_self _ _)) with ⟨t, htg⟩
        exact ⟨some t, by rw [htg, exc_bind_ok, exc_pure]⟩
      · rw [if_neg he]
        exact ih (fun kv hk => h kv (List.mem_cons_of_mem _ hk))

theorem scanValues_nomatch {items : List (String × PyVal)} {disc : PyVal}
    (h : ∀ kv ∈ items, pyEqStr disc kv.1 = false) :
    scanValues items disc = .ok none := by
  induction items with
  | nil => rfl
  | cons kv rest ih =>
    cases kv with
    | mk k sd =>
      simp only [scanValues]
      rw [if_neg (by simp [h (k, sd) (List.mem_cons_self _ _)])]
      exact ih (fun kv hk => h kv (List.mem_cons_of_mem _ hk))

theorem wfValues_truthy {v : PyVal} (hw : wfValues v = true)
    (ht : truthy v = true) :
    ∃ ves, v = .vDict ves ∧ ∀ kv ∈ ves, wfRule kv.2 = true := by
  cases v with
  | vDict es =>
    refine ⟨es, rfl, ?_⟩
    simpa [wfValues, List.all_eq_true] using hw
  | vNone => simp [truthy] at ht
  | vBool b =>
    exfalso
    simp [wfValues, truthy] at hw ht
    simp [hw] at ht
  | vStr s =>
    exfalso
    simp [wfValues, truthy] at hw ht
    simp [hw] at ht
  | vList xs =>
    exfalso
    simp [wfValues, truthy] at hw ht
    simp [hw] at ht

theorem get_image_labels_entries (img : String) (pods : List Pod) :
    ∀ pr ∈ pods.filterMap (podEntry img), ∃ l, pr.2 = PyVal.vDict l := by
  intro pr hpr
  rcases List.mem_filterMap.mp hpr with ⟨p, _, hpe⟩
  simp only [podEntry] at hpe
  by_cases hc : p.containers.contains img || (initImages p.initContainers).contains img
  · rw [if_pos hc] at hpe
    cases hpe
    exact ⟨_, rfl⟩
  · rw [if_neg hc] at hpe
    cases hpe

theorem loopPods_ok {labn : PyVal} {sme : List (String × PyVal)}
    (hlab : hashable labn = true)
    (hvals : wfValues ((sme.lookup "values").getD .vNone) = true) :
    ∀ entries : List (String × PyVal),
    (∀ pr ∈ entries, ∃ l, pr.2 = PyVal.vDict l) →
    ∃ r, loopPods entries labn (.vDict sme) = .ok r := by
  intro entries
  induction entries with
  | nil => exact fun _ => ⟨none, rfl⟩
  | cons pr rest ih =>
    intro hent
    cases pr with
    | mk pn labels =>
      rcases hent (pn, labels) (List.mem_cons_self _ _) with ⟨ld, hld⟩
      simp only at hld
      subst hld
      have hrest : ∀ pr ∈ rest, ∃ l, pr.2 = PyVal.vDict l :=
        fun pr hk => hent pr (List.mem_cons_of_mem _ hk)
      have hget : ∃ lv, pyGetByVal (.vDict ld) labn = .ok lv := by
        cases labn with
        | vStr s => exact ⟨_, rfl⟩
        | vNone => exact ⟨_, rfl⟩
        | vBool b => exact ⟨_, rfl⟩
        | vList xs => simp [hashable] at hlab
        | vDict es => simp [hashable] at hlab
      rcases hget with ⟨lv, hlv⟩
      simp only [loopPods]
      rw [hlv, exc_bind_ok]
      by_cases htl : truthy lv = true
      · rw [if_pos htl]
        have hvs : pyGetD (.vDict sme) "values" = .ok ((sme.lookup "values").getD .vNone) := rfl
        rw [hvs, exc_bind_ok]
        by_cases htv : truthy ((sme.lookup "values").getD .vNone) = true
        · rw [if_pos htv]
          rcases wfValues_truthy hvals htv with ⟨ves, hves, hrules⟩
          have hlk : sme.lookup "values" = some (.vDict ves) := by
            cases hl : sme.lookup "values" with
            | some x => rw [hl] at hves; simp at hves; rw [hves]
            | none =>
              rw [hl] at hves
              simp at hves
          have hitem : pyItem (.vDict sme) "values" = .ok (.vDict ves) := by
            simp [pyItem, hlk]
          rw [hitem, exc_bind_ok]
          have hitems : pyItems (.vDict ves) = .ok ves := rfl
          rw [hitems, exc_bind_ok]
          rcases scanValues_ok hrules lv with ⟨r, hr⟩
          rw [hr, exc_bind_ok]
          cases r with
          | some t => exact ⟨some t, rfl⟩
          | none => exact ih hrest
        · rw [if_neg htv]
          exact ih hrest
      · rw [if_neg htl]
        exact ih hrest

theorem map_image_to_snyk_ok {c : PyVal} (cl : Cluster) (ns : PyVal)
    (img : String) (hwf : wfConfig c = true) :
    ∃ r, map_image_to_snyk c cl ns img = .ok r := by
  cases c with
  | vNone => simp [wfConfig] at hwf
  | vBool b => simp [wfConfig] at hwf
  | vStr s => simp [wfConfig] at hwf
  | vList xs => simp [wfConfig] at hwf
  | vDict es =>
    simp only [map_image_to_snyk]
    have hget : pyGet (.vDict es) "snyk_org_mapping" (.vDict []) =
        .ok ((es.lookup "snyk_org_mapping").getD (.vDict [])) := rfl
    rw [hget, exc_bind_ok]
    cases hsm : es.lookup "snyk_org_mapping" with
    | none => exact ⟨none, by simp [hsm, truthy, exc_pure]⟩
    | some sm =>
      simp only [hsm, Option.getD_some]
      by_cases htr : truthy sm = true
      · simp only [htr, Bool.not_true, Bool.false_eq_true, if_false]
        cases sm with
        | vDict sme =>
          have hwf2 : (wfValues ((sme.lookup "values").getD .vNone)
              && hashable ((sme.lookup "label").getD .vNone)) = true := by
            simp only [wfConfig, hsm] at hwf
            rw [htr] at hwf
            simpa using hwf
          simp only [Bool.and_eq_true] at hwf2
          rcases hwf2 with ⟨hvals, hlab⟩
          have hmo : pyGetD (.vDict sme) "map_on" =
              .ok ((sme.lookup "map_on").getD .vNone) := rfl
          rw [hmo, exc_bind_ok]
          by_cases hl : pyEqStr ((sme.lookup "map_on").getD .vNone) "label" = true
          · rw [if_pos hl]
            have hln : pyGetD (.vDict sme) "label" =
                .ok ((sme.lookup "label").getD .vNone) := rfl
            rw [hln, exc_bind_ok]
            by_cases hpl : truthy (get_image_labels cl ns img) = true
            · simp only [hpl, Bool.not_true, Bool.false_eq_true, if_false]
              have hpl2 : ∃ pods : List Pod, get_image_labels cl ns img =
                  .vDict (pods.filterMap (podEntry img)) := by
                cases ns with
                | vStr s =>
                  cases hcl : cl.podsIn s with
                  | ok pods => exact ⟨pods, by simp [get_image_labels, hcl]⟩
                  | error e =>
                    rw [get_image_labels, hcl] at hpl
                    simp [truthy] at hpl
                | vNone => simp [get_image_labels, truthy] at hpl
                | vBool b => simp [get_image_labels, truthy] at hpl
                | vList xs => simp [get_image_labels, truthy] at hpl
                | vDict des => simp [get_image_labels, truthy] at hpl
              rcases hpl2 with ⟨pods, hpods⟩
              rw [hpods]
              have hitems : pyItems (.vDict (pods.filterMap (podEntry img))) =
                  .ok (pods.filterMap (podEntry img)) := rfl
              rw [hitems, exc_bind_ok]
              exact loopPods_ok hlab hvals _ (get_image_labels_entries img pods)
            · simp only [eq_false_of_ne_true hpl, Bool.not_false, if_true]
              exact ⟨none, rfl⟩
          · rw [if_neg hl]
            by_cases hn : pyEqStr ((sme.lookup "map_on").getD .vNone) "namespace" = true
            · rw [if_pos hn]
              have hvs : pyGetD (.vDict sme) "values" =
                  .ok ((sme.lookup "values").getD .vNone) := rfl
              rw [hvs, exc_bind_ok]
              by_cases htv : truthy ((sme.lookup "values").getD .vNone) = true
              · rw [if_pos htv]
                rcases wfValues_truthy hvals htv with ⟨ves, hves, hrules⟩
                have hlk : sme.lookup "values" = some (.vDict ves) := by
                  cases hl2 : sme.lookup "values" with
                  | some x => rw [hl2] at hves; simp at hves; rw [hves]
                  | none =>
                    rw [hl2] at hves
                    simp at hves
                have hitem : pyItem (.vDict sme) "values" = .ok (.vDict ves) := by
                  simp [pyItem, hlk]
                rw [hitem, exc_bind_ok]
                have hitems : pyItems (.vDict ves) = .ok ves := rfl
                rw [hitems, exc_bind_ok]
                exact scanValues_ok hrules ns
              · rw [if_neg htv]
                exact ⟨none, rfl⟩
            · rw [if_neg hn]
              exact ⟨none, rfl⟩
        | vNone =>
          exfalso
          simp [truthy] at htr
        | vBool b =>
          exfalso
          simp only [wfConfig, hsm] at hwf
          rw [htr] at hwf
          simp at hwf
        | vStr s =>
          exfalso
          simp only [wfConfig, hsm] at hwf
          rw [htr] at hwf
          simp at hwf
        | vList xs =>
          exfalso
          simp only [wfConfig, hsm] at hwf
          rw [htr] at hwf
          simp at hwf
      · simp only [eq_false_of_ne_true htr, Bool.not_false, if_true]
        exact ⟨none, rfl⟩

/-! Claim theorems. -/

/-- C1 (counterexample): under a policy with `map_on=namespace`, empty
`values` and a present valid default rule, `map_image_to_snyk` returns
`None` — not a target carrying the default rule's orgId/integrationId as
the claim states: the code never reads the default rule. -/
theorem c1_empty_values_default_not_used :
    map_image_to_snyk cfgEmptyValuesWithDefault clEmpty (.vStr "ns-x") "img" = .ok none ∧
    (Except.ok (some (PyVal.vStr "O0", PyVal.vStr "I0")) :
      Except String (Option (PyVal × PyVal))) ≠ .ok none := by
  constructor
  · rfl
  · intro h
    injection h with h2
    exact Option.noConfusion h2

/-- C1 (amended): whenever no `values` rule matches the namespace — in
particular when `values` is empty — `map_image_to_snyk` returns `None`
regardless of any default rule present in the configuration: no
default-rule fallback is implemented. -/
theorem c1_no_default_fallback (vs : List (String × PyVal)) (d : PyVal)
    (ns : PyVal) (img : String) (cl : Cluster)
    (h : ∀ kv ∈ vs, pyEqStr ns kv.1 = false) :
    map_image_to_snyk (mkNsCfg vs d) cl ns img = .ok none := by
  cases vs with
  | nil => rfl
  | cons kv rest =>
    show scanValues (kv :: rest) ns = .ok none
    exact scanValues_nomatch h

/-- Witness for C1: a concrete non-matching namespace with a valid default
rule present resolves to `None`. -/
theorem c1_no_default_fallback_witness :
    map_image_to_snyk (mkNsCfg [("ns-a", ruleA)]
      (.vDict [("snyk_org_id", .vStr "O0"), ("snyk_integration_id", .vStr "I0")]))
      clEmpty (.vStr "ns-b") "img" = .ok none :=
  c1_no_default_fallback _ _ _ _ _ (by decide)

/-- C2 (counterexample): with bad credentials (the Kubernetes
configuration load raises `ConfigException`), the exception reaches the
top-level handler, yet the process exit code is 0 — not non-zero as the
claim states. -/
theorem c2_bad_credentials_exit_zero :
    mainExit envBadCreds = 0 ∧ mainBody envBadCreds = .error "ConfigException" :=
  ⟨rfl, rfl⟩

/-- C2 (amended): the top-level `except Exception` handler of `__main__`
catches every exception and merely logs it, so the process exits 0 on
every run — on unrecoverable failures exactly as on successful
completion with zero images. -/
theorem c2_exit_always_zero (env : Env) : mainExit env = 0 := by
  cases hb : mainBody env with
  | ok u => simp [mainExit, hb]
  | error e => simp [mainExit, hb]

/-- C3: on every configuration typed as the data model's MappingPolicy
(`wfConfig`), for every cluster state, namespace value and image,
`map_image_to_snyk` returns normally — absence of a match is the `.ok
none` result, never a raised exception; this covers the empty policy,
`map_on=label` with no label data, and rules lacking fields. -/
theorem c3_resolution_never_raises (c : PyVal) (cl : Cluster) (ns : PyVal)
    (img : String) (hwf : wfConfig c = true) :
    ∃ r, map_image_to_snyk c cl ns img = .ok r :=
  map_image_to_snyk_ok cl ns img hwf

/-- Witness for C3 at a concrete well-typed policy, cluster and record. -/
theorem c3_resolution_never_raises_witness :
    wfConfig cfgOnlyNsA = true ∧
    ∃ r, map_image_to_snyk cfgOnlyNsA clOnePod (.vStr "ns-a") "img" = .ok r :=
  ⟨by decide, c3_resolution_never_raises cfgOnlyNsA clOnePod (.vStr "ns-a") "img" (by decide)⟩

/-- C4: with `values={"ns-a": ruleA}` and any default rule `d`, a record
in namespace `ns-a` resolves to ruleA's orgId/integrationId (exact,
case-sensitive match) — never to the default. -/
theorem c4_exact_match_precedence (oA iA d : PyVal) (img : String) (cl : Cluster) :
    map_image_to_snyk
      (mkNsCfg [("ns-a", .vDict [("snyk_org_id", oA), ("snyk_integration_id", iA)])] d)
      cl (.vStr "ns-a") img = .ok (some (oA, iA)) := rfl

/-- C5: with `values={"ns-a": ruleA}` and no default rule, every record in
namespace `ns-b` resolves to `None`, and a run scanning namespace `ns-b`
emits no entry at all into `images_data` (hence none into the targets
file). -/
theorem c5_no_match_resolves_none :
    (∀ (img : String) (cl : Cluster),
      map_image_to_snyk cfgOnlyNsA cl (.vStr "ns-b") img = .ok none) ∧
    (∀ (cl : Cluster) (imgs : List String),
      buildImagesData cfgOnlyNsA cl (.vList [.vStr "ns-b"]) imgs = .ok []) := by
  constructor
  · intro img cl
    rfl
  · intro cl imgs
    induction imgs with
    | nil => rfl
    | cons i rest ih =>
      simp only [buildImagesData]
      have h1 : pyIter (.vList [.vStr "ns-b"]) = .ok [.vStr "ns-b"] := rfl
      rw [h1, exc_bind_ok]
      have h2 : resolveFirst cfgOnlyNsA cl [.vStr "ns-b"] i = .ok none := rfl
      rw [h2, exc_bind_ok]
      rw [ih, exc_bind_ok]
      rfl

/-- C6: in one run the targets list carries at most one entry per distinct
image reference: `get_all_images` deduplicates, filtering preserves
distinctness, and the per-image namespace loop breaks after its first
match, so the image fields of `images_data` are distinct. -/
theorem c6_at_most_one_target_per_image
    (cfg : PyVal) (cl cl2 : Cluster) (nsv nsv2 : PyVal) (eng : RegexEngine)
    (pat : PyVal) (imgs fl : List String) (data : List ImageData)
    (h1 : get_all_images cl nsv = some imgs)
    (h2 : filter_images eng (some imgs) pat = .ok (some fl))
    (h3 : buildImagesData cfg cl2 nsv2 fl = .ok data) :
    (data.map (fun d => d.image)).Nodup := by
  have hnd : imgs.Nodup := by
    rcases Option.map_eq_some'.mp h1 with ⟨raw, _, hmap⟩
    exact hmap ▸ nodup_pySortedSet raw
  have hfl : fl.Nodup := by
    rcases filter_images_ok_shape h2 with rfl | ⟨q, rfl⟩
    · exact hnd
    · exact hnd.filter q
  exact (buildImagesData_sublist h3).nodup hfl

/-- Witness for C6 on a concrete end-to-end run. -/
theorem c6_at_most_one_target_per_image_witness :
    (([⟨"a", PyVal.vStr "OA", PyVal.vStr "IA"⟩] : List ImageData).map
      (fun d => d.image)).Nodup :=
  c6_at_most_one_target_per_image cfgOnlyNsA clOnePod clOnePod
    (.vList [.vStr "ns-a"]) (.vList [.vStr "ns-a"]) engMatchB (.vStr "x")
    ["a", "b"] ["a"] [⟨"a", PyVal.vStr "OA", PyVal.vStr "IA"⟩] rfl rfl rfl

/-- C7: for every image sequence and every syntactically invalid
exclusion pattern, `filter_images` returns normally with the input
unchanged (filtering silently disabled); likewise for an absent
(`None`) pattern. -/
theorem c7_invalid_regex_filter_unchanged (eng : RegexEngine)
    (l : List String) (pat : String) (hc : eng.compile pat = none) :
    filter_images eng (some l) (.vStr pat) = .ok (some l) ∧
    filter_images eng (some l) .vNone = .ok (some l) :=
  ⟨filter_images_unchanged_of_invalid hc l, rfl⟩

/-- Witness for C7 with a concrete invalid pattern. -/
theorem c7_invalid_regex_filter_unchanged_witness :
    filter_images engAllInvalid (some ["x"]) (.vStr "(") = .ok (some ["x"]) ∧
    filter_images engAllInvalid (some ["x"]) .vNone = .ok (some ["x"]) :=
  c7_invalid_regex_filter_unchanged engAllInvalid ["x"] "(" rfl

/-- C8: exclusion filtering is idempotent — refiltering an
already-filtered sequence with the same valid pattern returns it
unchanged. -/
theorem c8_filter_idempotent (eng : RegexEngine) (pat : String)
    (f : String → Bool) (l fl : List String)
    (hc : eng.compile pat = some f)
    (h : filter_images eng (some l) (.vStr pat) = .ok (some fl)) :
    filter_images eng (some fl) (.vStr pat) = .ok (some fl) := by
  by_cases hp : pat.isEmpty
  · have hu : filter_images eng (some l) (.vStr pat) = .ok (some l) := by
      simp [filter_images, truthy, hp]
    rw [hu] at h
    injection h with h2
    injection h2 with h3
    subst h3
    simp [filter_images, truthy, hp]
  · have hu : filter_images eng (some l) (.vStr pat) =
        .ok (some (l.filter (fun i => !f i))) := by
      simp [filter_images, truthy, hp, filterLoop_valid hc l]
    rw [hu] at h
    injection h with h2
    injection h2 with h3
    subst h3
    have hff : (l.filter (fun i => !f i)).filter (fun i => !f i) =
        l.filter (fun i => !f i) := by
      rw [List.filter_filter]
      simp
    simp [filter_images, truthy, hp, filterLoop_valid hc (l.filter (fun i => !f i)), hff]

/-- Witness for C8 on a concrete valid pattern and sequence. -/
theorem c8_filter_idempotent_witness :
    filter_images engMatchB (some ["a"]) (.vStr "x") = .ok (some ["a"]) :=
  c8_filter_idempotent engMatchB "x" (fun s => s == "b") ["a", "b"] ["a"] rfl rfl

/-- C9 (counterexample): on a single-segment reference the reference
PathSuffix builder (modelled from the spec) raises an `IndexError` — it
does not produce a defined fallback result as the claim states. -/
theorem c9_single_segment_crashes :
    pathSuffixName "app:1.2" = .error "IndexError" := rfl

/-- C9 (amended): the PathSuffix style derives the target name as the
last two slash-delimited segments joined by a slash; for a reference with
fewer than two segments the reference behavior is an unhandled
`IndexError`, not a fallback. -/
theorem c9_path_suffix_last_two_segments :
    pathSuffixName "registry.example.com/team/app:1.2" = .ok "team/app:1.2" ∧
    ∀ ref : String, (pathSegs ref).length < 2 →
      pathSuffixName ref = .error "IndexError" := by
  constructor
  · rfl
  · intro ref h
    simp [pathSuffixName, h]

/-- Witness for C9 at the two concrete references of the claim. -/
theorem c9_path_suffix_last_two_segments_witness :
    pathSuffixName "registry.example.com/team/app:1.2" = .ok "team/app:1.2" ∧
    pathSuffixName "app:1.2" = .error "IndexError" :=
  ⟨c9_path_suffix_last_two_segments.1,
   c9_path_suffix_last_two_segments.2 "app:1.2" (by decide)⟩

/-- C10: whenever `get_all_images` succeeds, its result is strictly
sorted in ascending code-point order (hence duplicate-free), and contains
exactly the image references of the collected containers and
init-containers. -/
theorem c10_images_sorted_dedup (cl : Cluster) (nsv : PyVal)
    (imgs : List String) (h : get_all_images cl nsv = some imgs) :
    imgs.Pairwise (fun a b => strLt a b = true) ∧ imgs.Nodup ∧
    ∃ raw, collectImages cl nsv = some raw ∧ ∀ a : String, a ∈ imgs ↔ a ∈ raw := by
  rcases Option.map_eq_some'.mp h with ⟨raw, hraw, hmap⟩
  subst hmap
  exact ⟨pairwise_pySortedSet raw, nodup_pySortedSet raw, raw, hraw,
    fun a => mem_pySortedSet a raw⟩

/-- Witness for C10 on a concrete cluster whose pod lists image `b`, `a`
and init-container image `a`. -/
theorem c10_images_sorted_dedup_witness :
    (["a", "b"] : List String).Pairwise (fun a b => strLt a b = true) ∧
    (["a", "b"] : List String).Nodup ∧
    ∃ raw, collectImages clOnePod .vNone = some raw ∧
      ∀ x : String, x ∈ (["a", "b"] : List String) ↔ x ∈ raw :=
  c10_images_sorted_dedup clOnePod .vNone ["a", "b"] rfl
